import Mathlib

/-!
Shallow embedding of the telemetry core of `src/esp_dash_v1.ino`
(Speeduino-Dash): the Speeduino 'n'-frame byte receiver, the fixed-offset
payload decoder, the link-staleness evaluation, the shift-light state
machine, the portal-mode arbiter and the SD recording gate.

Machine integers are modelled as `Nat` (with an explicit `% 2^32` helper
for the `uint32_t` subtractions on `millis()` values); the `float` fields
(`vbat`, `afr`) are modelled as exact rationals, the C arithmetic on them
being plain divisions by 10 and 100.
-/

set_option maxRecDepth 8192

namespace Speeduino

/-! ### Constants (esp_dash_v1.ino) -/

/-- `static const uint8_t CMD_N = 'n';` (line 313). -/
def CMD_N : Nat := 110

/-- `static const int MAX_PAYLOAD = 200;` (line 314). -/
def MAX_PAYLOAD : Nat := 200

/-- `static const uint32_t LINK_STALE_MS = 700;` (line 204). -/
def LINK_STALE_MS : Nat := 700

/-- `static const uint32_t SHIFT_FLASH_MS = 180;` (line 209). -/
def SHIFT_FLASH_MS : Nat := 180

/-- `static const int TEMP_OFFSET = 40;` (line 329). -/
def TEMP_OFFSET : Int := 40

/-- Data-mapping offsets (lines 330-338). -/
def IDX_IAT : Nat := 6

def IDX_CLT : Nat := 7

def IDX_VBAT10 : Nat := 9

def IDX_RPM_L : Nat := 14

def IDX_ADVANCE : Nat := 23

def IDX_TPS : Nat := 24

def IDX_ENGINE : Nat := 2

def IDX_SPARKBF : Nat := 31

def AFR_INDEX : Nat := 10

/-- Modulus of `uint32_t` arithmetic. -/
def U32 : Nat := 2 ^ 32

/-- `uint32_t` subtraction `a - b` (wrapping), as used on `millis()` values. -/
def u32sub (a b : Nat) : Nat := (a % U32 + (U32 - b % U32)) % U32

/-- `static inline uint16_t u16le(const uint8_t* p)` (line 233):
`(uint16_t)p[0] | ((uint16_t)p[1] << 8)`, reading at offset `i` of the payload. -/
def u16le (p : List Nat) (i : Nat) : Nat :=
  p.getD i 0 ||| ((p.getD (i + 1) 0) <<< 8)

/-- `static inline bool bitSetU8(uint8_t v, uint8_t b)` (line 234):
`(v >> b) & 1U` converted to `bool` (nonzero test). -/
def bitSetU8 (v b : Nat) : Bool := (v >>> b) &&& 1 != 0

/-! ### Decoder (lines 246-257, 272, 727-761) -/

/-- `enum AfrFormat { AFR_U16_x100 = 0, AFR_U16_x10 = 1, AFR_U8_div10 = 2 };` -/
inductive AfrFormat
  | AFR_U16_x100
  | AFR_U16_x10
  | AFR_U8_div10
deriving DecidableEq

/-- `struct EcuData` (lines 246-257); the two `float` fields are modelled
as exact rationals. -/
structure EcuData where
  rpm : Int := 0
  iatC : Int := 0
  cltC : Int := 0
  vbat : ℚ := 0
  afr : ℚ := 0
  tps : Int := 0
  advance : Int := 0
  warmup : Bool := false
  launch : Bool := false
  lastUpdateMs : Nat := 0
deriving DecidableEq

/-- `static float decodeAfr(const uint8_t* p, int len)` (lines 727-740). -/
def decodeAfr (fmt : AfrFormat) (p : List Nat) (len : Nat) : ℚ :=
  match fmt with
  | .AFR_U16_x100 => if len ≤ AFR_INDEX + 1 then 0 else (u16le p AFR_INDEX : ℚ) / 100
  | .AFR_U16_x10 => if len ≤ AFR_INDEX + 1 then 0 else (u16le p AFR_INDEX : ℚ) / 10
  | .AFR_U8_div10 => if len ≤ AFR_INDEX then 0 else (p.getD AFR_INDEX 0 : ℚ) / 10

/-- `static void decodePayload(const uint8_t* p, int len)` (lines 742-761).
The C function mutates the globals `ecu` and `linkValid`; here they are
threaded explicitly and returned.  `now` stands for the `millis()` call at
line 759. -/
def decodePayload (fmt : AfrFormat) (p : List Nat) (len : Nat) (now : Nat)
    (ecu : EcuData) (linkValid : Bool) : EcuData × Bool :=
  if len < 40 then (ecu, linkValid)
  else
    ({ iatC := (p.getD IDX_IAT 0 : Int) - TEMP_OFFSET
       cltC := (p.getD IDX_CLT 0 : Int) - TEMP_OFFSET
       rpm := (u16le p IDX_RPM_L : Int)
       vbat := (p.getD IDX_VBAT10 0 : ℚ) / 10
       afr := decodeAfr fmt p len
       advance := (p.getD IDX_ADVANCE 0 : Int)
       tps := ((p.getD IDX_TPS 0 + 1) / 2 : Nat)
       warmup := bitSetU8 (p.getD IDX_ENGINE 0) 3
       launch := bitSetU8 (p.getD IDX_SPARKBF 0) 0 || bitSetU8 (p.getD IDX_SPARKBF 0) 1
       lastUpdateMs := now }, true)

/-! ### Frame receiver (lines 313-320, 763-781) -/

/-- `enum RxState { WAIT_N, WAIT_TYPE, WAIT_LEN, READ_PAYLOAD };` (line 319). -/
inductive RxState
  | WAIT_N
  | WAIT_TYPE
  | WAIT_LEN
  | READ_PAYLOAD
deriving DecidableEq

/-- Receiver state: `rxState`, `rxLen`, `rxCount` (lines 316-320).  `buf`
models the prefix `payload[0..rxCount)` of the 200-byte array that has been
written since the last length byte; on emission (when `rxCount` reaches
`rxLen`) exactly these `rxLen` bytes are handed to `decodePayload`. -/
structure Rx where
  rxState : RxState
  rxLen : Nat
  rxCount : Nat
  buf : List Nat
deriving DecidableEq

/-- Initial receiver state (globals' initialisers, lines 316-320). -/
def rxInit : Rx := ⟨RxState.WAIT_N, 0, 0, []⟩

/-- The reset performed by `showSplashThenStartSerial` (lines 719-721) and
by `setPortalMode(false)` (lines 1803-1805): back to `WAIT_N` discarding
the partial frame. -/
def rxReset (s : Rx) : Rx :=
  { s with rxState := RxState.WAIT_N, rxCount := 0, rxLen := 0, buf := [] }

/-- `static void onRxByte(uint8_t b)` (lines 763-781), the framing part:
returns the next receiver state and, when a frame completes, the payload
handed to `decodePayload` (`some` of the `rxLen` buffered bytes). -/
def onRxByte (s : Rx) (b : Nat) : Rx × Option (List Nat) :=
  match s.rxState with
  | RxState.WAIT_N =>
      (if b = CMD_N then { s with rxState := RxState.WAIT_TYPE } else s, none)
  | RxState.WAIT_TYPE => ({ s with rxState := RxState.WAIT_LEN }, none)
  | RxState.WAIT_LEN =>
      if b = 0 ∨ MAX_PAYLOAD < b then
        ({ s with rxLen := b, rxCount := 0, buf := [], rxState := RxState.WAIT_N }, none)
      else
        ({ s with rxLen := b, rxCount := 0, buf := [], rxState := RxState.READ_PAYLOAD }, none)
  | RxState.READ_PAYLOAD =>
      let buf := s.buf ++ [b]
      let cnt := s.rxCount + 1
      if s.rxLen ≤ cnt then
        ({ s with rxState := RxState.WAIT_N, rxCount := cnt, buf := buf }, some buf)
      else
        ({ s with rxCount := cnt, buf := buf }, none)

/-- Feed a byte sequence one byte at a time; returns the final state and
the emitted frame payloads in arrival order. -/
def runRx (s : Rx) (bs : List Nat) : Rx × List (List Nat) :=
  match bs with
  | [] => (s, [])
  | b :: rest =>
      let r := onRxByte s b
      let rr := runRx r.1 rest
      (rr.1, r.2.toList ++ rr.2)

/-- On-the-wire encoding of one frame: sync byte `'n'`, a type byte, the
length byte, then the payload (lines 768-778). -/
def encodeFrame (t L : Nat) (ps : List Nat) : List Nat :=
  CMD_N :: t :: L :: ps

/-- Well-formedness of a frame as transmitted: byte-sized type, valid
length (`0 < L ≤ MAX_PAYLOAD`), payload of exactly `L` bytes. -/
def FrameWF (t L : Nat) (ps : List Nat) : Prop :=
  t < 256 ∧ 1 ≤ L ∧ L ≤ MAX_PAYLOAD ∧ ps.length = L ∧ ∀ b ∈ ps, b < 256

instance (t L : Nat) (ps : List Nat) : Decidable (FrameWF t L ps) := by
  unfold FrameWF; infer_instance

/-- Concatenation of the encodings of a list of frames `(type, len, payload)`. -/
def encodeFrames : List (Nat × Nat × List Nat) → List Nat
  | [] => []
  | f :: rest => encodeFrame f.1 f.2.1 f.2.2 ++ encodeFrames rest

/-! ### Link state (lines 322-326, 1602-1604) -/

/-- The globals tying the receiver to the link indicator: `rxBytes`,
`lastRxMs`, `linkValid` (lines 324-326) together with the receiver state
and the decoded snapshot. -/
structure DashState where
  rx : Rx
  ecu : EcuData
  linkValid : Bool
  lastRxMs : Nat
  rxBytes : Nat
deriving DecidableEq

/-- Boot state of the link globals. -/
def dashInit : DashState :=
  { rx := rxInit, ecu := {}, linkValid := false, lastRxMs := 0, rxBytes := 0 }

/-- `onRxByte` in full (lines 763-781): counts the byte, refreshes
`lastRxMs` with the current `millis()` (`now`), steps the framing machine
and, when a frame completes, runs `decodePayload(payload, rxLen)`. -/
def feedByte (fmt : AfrFormat) (s : DashState) (b now : Nat) : DashState :=
  let r := onRxByte s.rx b
  match r.2 with
  | none => { s with rx := r.1, rxBytes := s.rxBytes + 1, lastRxMs := now }
  | some p =>
      let d := decodePayload fmt p r.1.rxLen now s.ecu s.linkValid
      { s with rx := r.1, rxBytes := s.rxBytes + 1, lastRxMs := now,
               ecu := d.1, linkValid := d.2 }

/-- Feed a byte list, all stamped with the same `millis()` value. -/
def feedBytes (fmt : AfrFormat) (s : DashState) (bs : List Nat) (now : Nat) : DashState :=
  bs.foldl (fun st b => feedByte fmt st b now) s

/-- The staleness evaluation opening `update_dash_values` (lines 1602-1604):
`bool stale = (millis() - lastRxMs) > LINK_STALE_MS; if (stale) linkValid
= false;`.  Returns the updated state and the `stale` flag that is passed
on to `update_status_bar` (the "LINK: STALE" indicator). -/
def updateLink (s : DashState) (now : Nat) : DashState × Bool :=
  let stale := LINK_STALE_MS < u32sub now s.lastRxMs
  (if stale then { s with linkValid := false } else s, stale)

/-! ### Shift light (lines 307-310, 1612-1632) -/

/-- The shift-overlay globals (lines 308-310). -/
structure ShiftState where
  shiftActive : Bool
  shiftBlinkT0 : Nat
  shiftBlinkOn : Bool
deriving DecidableEq

/-- Observable shift-light signals: `lv_scr_load(scr_shift)` on the
entering edge, the background-colour flip while alerting, and
`lv_scr_load(scr_dash)` on the leaving edge. -/
inductive ShiftEvent
  | enterAlert
  | flipColor
  | exitAlert
deriving DecidableEq

/-- The shift-light portion of `update_dash_values` (lines 1612-1632),
with the configuration (`setting_shiftEnabled`, `setting_shiftRpm`), the
link state and the snapshot rpm passed in, and the emitted UI signals
returned alongside the new state. -/
def shiftStep (shiftEnabled linkValid : Bool) (rpm shiftRpm : Int) (now : Nat)
    (s : ShiftState) : ShiftState × List ShiftEvent :=
  if shiftEnabled && linkValid && decide (shiftRpm ≤ rpm) then
    let r1 : ShiftState × List ShiftEvent :=
      if !s.shiftActive then
        ({ shiftActive := true, shiftBlinkT0 := now, shiftBlinkOn := true },
         [ShiftEvent.enterAlert])
      else (s, [])
    if SHIFT_FLASH_MS ≤ u32sub now r1.1.shiftBlinkT0 then
      ({ r1.1 with shiftBlinkT0 := now, shiftBlinkOn := !r1.1.shiftBlinkOn },
       r1.2 ++ [ShiftEvent.flipColor])
    else r1
  else
    if s.shiftActive then
      ({ s with shiftActive := false }, [ShiftEvent.exitAlert])
    else (s, [])

/-! ### Portal-mode arbiter (lines 396-408, 1778-1817) -/

/-- Externally observable actions of a mode transition. -/
inductive PortalAction
  | serialEnd
  | stopRec
  | uiPause
  | drawPortalScreen
  | serialBegin
  | flushInput
  | uiResume
  | redraw
deriving DecidableEq

/-- The globals touched by `setPortalMode`. -/
structure PortalState where
  portalMode : Bool
  recording : Bool
  uiPaused : Bool
  rx : Rx
  linkValid : Bool
  lastRxMs : Nat
deriving DecidableEq

/-- `static void setUiPaused(bool pause)` (lines 396-408), guard only:
returns immediately when the flag already has the requested value. -/
def setUiPaused (pause : Bool) (s : PortalState) : PortalState × List PortalAction :=
  if s.uiPaused = pause then (s, [])
  else ({ s with uiPaused := pause },
        [if pause then PortalAction.uiPause else PortalAction.uiResume])

/-- `static void setPortalMode(bool on)` (lines 1778-1817).  `now` is the
`millis()` stored into `lastRxMs` when leaving portal mode (line 1807). -/
def setPortalMode (onMode : Bool) (now : Nat) (s : PortalState) : PortalState × List PortalAction :=
  if s.portalMode = onMode then (s, [])
  else
    let s0 := { s with portalMode := onMode }
    if onMode then
      let r1 : PortalState × List PortalAction :=
        if s0.recording then ({ s0 with recording := false }, [PortalAction.stopRec])
        else (s0, [])
      let r2 := setUiPaused true r1.1
      (r2.1, PortalAction.serialEnd :: (r1.2 ++ r2.2 ++ [PortalAction.drawPortalScreen]))
    else
      let s1 := { s0 with rx := rxReset s0.rx, linkValid := false, lastRxMs := now }
      let r2 := setUiPaused false s1
      (r2.1, PortalAction.serialBegin :: PortalAction.flushInput ::
             (r2.2 ++ [PortalAction.redraw]))

/-! ### Recording gate (lines 294-300, 636-667) -/

/-- The five failure messages `startRecording` can return (lines 650-657). -/
inductive RecReason
  | loggingDisabled
  | sdNotDetected
  | alreadyRecording
  | portalBusy
  | openFailed
deriving DecidableEq

/-- Storage-visible operations performed by `startRecording`, in order:
`SD.open(makeLogFilename())` using the current `setting_logIndex`
(lines 655-656), the CSV header `println` (line 659), and the
`saveSettings()` that persists the incremented counter (lines 663-664). -/
inductive RecOp
  | openLog (idx : Nat)
  | writeHeader
  | persistIndex (idx : Nat)
deriving DecidableEq

/-- The globals read and written by `startRecording`:
`setting_logEnabled`, `sdOk`, `recording`, `portalBusy`,
`setting_logIndex`, `lastLogMs`. -/
structure RecState where
  logEnabled : Bool
  sdOk : Bool
  recording : Bool
  portalBusy : Bool
  logIndex : Nat
  lastLogMs : Nat
deriving DecidableEq

/-- `static const char* startRecording()` (lines 649-667).  `openOk`
models whether `SD.open` yields a usable file handle (line 657).  Returns
the new state, `none` on success or `some` reason on failure, and the
ordered trace of storage operations performed.  The `setRecButtonActive`
UI call is not a storage operation and is omitted from the trace. -/
def startRecording (openOk : Bool) (s : RecState) :
    RecState × Option RecReason × List RecOp :=
  if !s.logEnabled then (s, some RecReason.loggingDisabled, [])
  else if !s.sdOk then (s, some RecReason.sdNotDetected, [])
  else if s.recording then (s, some RecReason.alreadyRecording, [])
  else if s.portalBusy then (s, some RecReason.portalBusy, [])
  else if !openOk then (s, some RecReason.openFailed, [RecOp.openLog s.logIndex])
  else
    ({ s with recording := true, logIndex := s.logIndex + 1, lastLogMs := 0 },
     none,
     [RecOp.openLog s.logIndex, RecOp.writeHeader, RecOp.persistIndex (s.logIndex + 1)])

/-- Does this operation write data into the newly opened log file? -/
def isWriteOp : RecOp → Bool
  | RecOp.writeHeader => true
  | _ => false

/-- Does this operation persist the session counter? -/
def isPersistOp : RecOp → Bool
  | RecOp.persistIndex _ => true
  | _ => false

/-- The ordering property claimed of `startRecording`: every write to the
log file is preceded, in the operation trace, by a persist of the session
counter. -/
def persistPrecedesWrites (tr : List RecOp) : Prop :=
  ∀ j, j < tr.length → isWriteOp (tr.getD j RecOp.writeHeader) = true →
    ∃ i, i < j ∧ isPersistOp (tr.getD i RecOp.writeHeader) = true

/-! ### Helper lemmas -/

/-- A low byte or-ed with a value shifted left by 8 is their sum: the
little-endian word `u16le` reads is `lo + 256 * hi`. -/
lemma lor_shiftLeft_eq_add (x y : Nat) (hx : x < 256) :
    x ||| (y <<< 8) = x + 256 * y := by
  have hx8 : x < 2 ^ 8 := by norm_num at hx ⊢; exact hx
  have hrw : x + 256 * y = 2 ^ 8 * y + x := by ring
  apply Nat.eq_of_testBit_eq
  intro i
  rw [Nat.testBit_lor, Nat.testBit_shiftLeft, hrw, Nat.testBit_mul_pow_two_add y hx8 i]
  by_cases h : i < 8
  · have h' : ¬(i ≥ 8) := by omega
    simp [h, h']
  · have hge : i ≥ 8 := by omega
    have hxi : Nat.testBit x i = false :=
      Nat.testBit_eq_false_of_lt
        (lt_of_lt_of_le hx8 (Nat.pow_le_pow_right (by norm_num) hge))
    simp [h, hge, hxi]

/-- The value `u16le` extracts, in arithmetic form. -/
lemma u16le_eq (p : List Nat) (i : Nat) (h : p.getD i 0 < 256) :
    u16le p i = p.getD i 0 + 256 * p.getD (i + 1) 0 :=
  lor_shiftLeft_eq_add _ _ h

/-- `bitSetU8 v b` tests bit `b` of `v`. -/
lemma bitSetU8_eq_testBit (v b : Nat) : bitSetU8 v b = Nat.testBit v b := by
  simp [bitSetU8, Nat.testBit, Nat.and_comm]

/-- For timestamps in range with no wraparound, `u32sub` is plain
subtraction. -/
lemma u32sub_eq_sub (a b : Nat) (hba : b ≤ a) (ha : a < U32) :
    u32sub a b = a - b := by
  have hb : b < U32 := lt_of_le_of_lt hba ha
  unfold u32sub U32 at *
  omega

/-- Running the receiver over a concatenation: states thread through,
emissions append. -/
lemma runRx_append (xs ys : List Nat) : ∀ s : Rx,
    runRx s (xs ++ ys) =
      ((runRx (runRx s xs).1 ys).1, (runRx s xs).2 ++ (runRx (runRx s xs).1 ys).2) := by
  induction xs with
  | nil => intro s; simp [runRx]
  | cons b rest ih =>
      intro s
      simp [runRx, ih (onRxByte s b).1]

/-- From `READ_PAYLOAD`, feeding exactly the missing bytes emits one frame
consisting of everything buffered since the length byte, and returns the
receiver to `WAIT_N`. -/
lemma runRx_readPayload (ps : List Nat) : ∀ s : Rx,
    s.rxState = RxState.READ_PAYLOAD →
    s.rxCount + ps.length = s.rxLen → ps ≠ [] →
    runRx s ps =
      (⟨RxState.WAIT_N, s.rxLen, s.rxLen, s.buf ++ ps⟩, [s.buf ++ ps]) := by
  induction ps with
  | nil => intro s _ _ hne; exact absurd rfl hne
  | cons b rest ih =>
      intro s hstate hlen _
      obtain ⟨st, len, cnt, buf⟩ := s
      simp only at hstate hlen
      subst hstate
      cases rest with
      | nil =>
          have hfill : len ≤ cnt + 1 := by simp at hlen; omega
          have hcnt : cnt + 1 = len := by simp at hlen; omega
          simp [runRx, onRxByte, hfill, hcnt]
      | cons b2 rest2 =>
          have hnofill : ¬(len ≤ cnt + 1) := by simp at hlen; omega
          have hstep :
              onRxByte ⟨RxState.READ_PAYLOAD, len, cnt, buf⟩ b =
                (⟨RxState.READ_PAYLOAD, len, cnt + 1, buf ++ [b]⟩, none) := by
            simp [onRxByte, hnofill]
          have hrec := ih ⟨RxState.READ_PAYLOAD, len, cnt + 1, buf ++ [b]⟩
            rfl (by simp at hlen ⊢; omega) (by simp)
          conv_lhs => rw [runRx]
          simp only [hstep, hrec]
          simp

/-- From `WAIT_N`, one well-formed encoded frame is parsed completely:
its payload is emitted once and the receiver is back in `WAIT_N`. -/
lemma runRx_frame (s : Rx) (t L : Nat) (ps : List Nat)
    (hs : s.rxState = RxState.WAIT_N) (hwf : FrameWF t L ps) :
    runRx s (encodeFrame t L ps) = (⟨RxState.WAIT_N, L, L, ps⟩, [ps]) := by
  obtain ⟨-, hL1, hL2, hlen, -⟩ := hwf
  obtain ⟨st, len, cnt, buf⟩ := s
  simp only at hs
  subst hs
  have hLok : ¬(L = 0 ∨ MAX_PAYLOAD < L) := by
    unfold MAX_PAYLOAD at *; omega
  have h1 : onRxByte ⟨RxState.WAIT_N, len, cnt, buf⟩ CMD_N =
      (⟨RxState.WAIT_TYPE, len, cnt, buf⟩, none) := by
    simp [onRxByte]
  have h2 : onRxByte ⟨RxState.WAIT_TYPE, len, cnt, buf⟩ t =
      (⟨RxState.WAIT_LEN, len, cnt, buf⟩, none) := by
    simp [onRxByte]
  have h3 : onRxByte ⟨RxState.WAIT_LEN, len, cnt, buf⟩ L =
      (⟨RxState.READ_PAYLOAD, L, 0, []⟩, none) := by
    simp [onRxByte, hLok]
  have h4 := runRx_readPayload ps ⟨RxState.READ_PAYLOAD, L, 0, []⟩ rfl
    (by simp [hlen]) (by intro hnil; rw [hnil] at hlen; simp at hlen; omega)
  simp only [encodeFrame, runRx, h1, h2, h3, h4]
  simp

/-! ### Claim theorems -/

/-- C4: in `WAIT_LEN`, a length byte `L` with `L = 0` or `L > MAX_PAYLOAD`
(200) drops the frame and returns to `WAIT_N` emitting nothing; any other
`L` — including exactly `L = 200` — enters `READ_PAYLOAD`, buffers `L`
bytes, emits exactly one frame and resets to `WAIT_N` once filled. -/
theorem length_byte_policy (s : Rx) (L : Nat) (ps : List Nat)
    (hs : s.rxState = RxState.WAIT_LEN) (hL : L < 256) (hps : ps.length = L) :
    ((L = 0 ∨ MAX_PAYLOAD < L) →
      onRxByte s L =
        ({ s with rxLen := L, rxCount := 0, buf := [], rxState := RxState.WAIT_N }, none)) ∧
    (1 ≤ L → L ≤ MAX_PAYLOAD →
      (onRxByte s L).2 = none ∧
      (onRxByte s L).1.rxState = RxState.READ_PAYLOAD ∧
      runRx (onRxByte s L).1 ps = (⟨RxState.WAIT_N, L, L, ps⟩, [ps])) := by
  obtain ⟨st, len, cnt, buf⟩ := s
  simp only at hs
  subst hs
  constructor
  · intro hbad
    simp [onRxByte, hbad]
  · intro h1 h2
    have hok : ¬(L = 0 ∨ MAX_PAYLOAD < L) := by unfold MAX_PAYLOAD at *; omega
    have hstep : onRxByte ⟨RxState.WAIT_LEN, len, cnt, buf⟩ L =
        (⟨RxState.READ_PAYLOAD, L, 0, []⟩, none) := by
      simp [onRxByte, hok]
    refine ⟨by simp [hstep], by simp [hstep], ?_⟩
    rw [hstep]
    exact runRx_readPayload ps ⟨RxState.READ_PAYLOAD, L, 0, []⟩ rfl (by simp [hps])
      (by intro hnil; rw [hnil] at hps; simp at hps; omega)

/-- C4 witness: the boundary length `L = 200` is accepted: from `WAIT_LEN`
the receiver buffers 200 bytes and emits them as one frame. -/
theorem length_byte_policy_witness :
    (onRxByte (⟨RxState.WAIT_LEN, 0, 0, []⟩ : Rx) 200).1.rxState = RxState.READ_PAYLOAD ∧
    runRx (onRxByte (⟨RxState.WAIT_LEN, 0, 0, []⟩ : Rx) 200).1 (List.replicate 200 5) =
      (⟨RxState.WAIT_N, 200, 200, List.replicate 200 5⟩, [List.replicate 200 5]) := by
  have h := (length_byte_policy ⟨RxState.WAIT_LEN, 0, 0, []⟩ 200 (List.replicate 200 5)
      rfl (by decide) (by simp)).2 (by decide) (by decide)
  exact ⟨h.2.1, h.2.2⟩

/-- C5 counterexample: not every well-formed embedded frame is emitted.
In the stream `[110, 110, 7, 1, 99]` a well-formed frame (sync `'n'`,
type 7, length 1, payload `[99]`) starts at index 1, yet the receiver —
whose first `'n'` consumed the stray leading sync byte — emits nothing at
all. -/
theorem embedded_frame_swallowed :
    List.drop 1 [CMD_N, CMD_N, 7, 1, 99] = encodeFrame 7 1 [99] ∧
    FrameWF 7 1 [99] ∧
    (runRx rxInit [CMD_N, CMD_N, 7, 1, 99]).2 = [] := by
  decide

/-- C5 (amended): `feed` is total (the step function is a total function
on every byte in every state), and when the input is a concatenation of
well-formed frames fed from the sync-waiting state, every frame's payload
is emitted exactly once, in arrival order.  (An embedded frame preceded by
bytes that leave the receiver mid-frame can be swallowed: there is no
resync heuristic.) -/
theorem frames_emitted_in_order (fs : List (Nat × Nat × List Nat)) :
    ∀ s : Rx, s.rxState = RxState.WAIT_N →
    (∀ f ∈ fs, FrameWF f.1 f.2.1 f.2.2) →
    (runRx s (encodeFrames fs)).2 = fs.map (fun f => f.2.2) ∧
    (runRx s (encodeFrames fs)).1.rxState = RxState.WAIT_N := by
  induction fs with
  | nil => intro s hs _; simp [encodeFrames, runRx, hs]
  | cons f rest ih =>
      intro s hs hwf
      have hframe := runRx_frame s f.1 f.2.1 f.2.2 hs (hwf f (by simp))
      have hrest := ih ⟨RxState.WAIT_N, f.2.1, f.2.1, f.2.2⟩ rfl
        (fun g hg => hwf g (by simp [hg]))
      have key : runRx s (encodeFrames (f :: rest)) =
          ((runRx (⟨RxState.WAIT_N, f.2.1, f.2.1, f.2.2⟩ : Rx) (encodeFrames rest)).1,
           [f.2.2] ++ (runRx (⟨RxState.WAIT_N, f.2.1, f.2.1, f.2.2⟩ : Rx) (encodeFrames rest)).2) := by
        conv_lhs => rw [encodeFrames]
        rw [runRx_append, hframe]
      rw [key]
      simp [hrest.1, hrest.2]

/-- C5 witness: two concatenated well-formed frames are both emitted, in
order. -/
theorem frames_emitted_in_order_witness :
    (runRx rxInit (encodeFrames [(0, 1, [5]), (3, 2, [1, 2])])).2 = [[5], [1, 2]] ∧
    (runRx rxInit (encodeFrames [(0, 1, [5]), (3, 2, [1, 2])])).1.rxState = RxState.WAIT_N := by
  have h := frames_emitted_in_order [(0, 1, [5]), (3, 2, [1, 2])] rxInit rfl (by decide)
  exact ⟨h.1, h.2⟩

/-- Receiver states reachable from boot through arbitrary input bytes and
the resets performed on serial (re)start. -/
inductive RxReachable : Rx → Prop
  | init : RxReachable rxInit
  | step : ∀ (s : Rx) (b : Nat), RxReachable s → RxReachable (onRxByte s b).1
  | reset : ∀ (s : Rx), RxReachable s → RxReachable (rxReset s)

/-- C10: in every reachable receiver state that is in `READ_PAYLOAD`,
`rxCount < rxLen ≤ MAX_PAYLOAD` holds before the next stored byte, so the
store `payload[rxCount++]` never indexes at or past index 200. -/
theorem payload_index_in_bounds (s : Rx) (h : RxReachable s)
    (hrp : s.rxState = RxState.READ_PAYLOAD) :
    s.rxCount < s.rxLen ∧ s.rxLen ≤ MAX_PAYLOAD ∧ s.rxCount < 200 := by
  have key : ∀ u : Rx, RxReachable u →
      u.rxState = RxState.READ_PAYLOAD → u.rxCount < u.rxLen ∧ u.rxLen ≤ MAX_PAYLOAD := by
    intro u hu
    induction hu with
    | init => intro hc; simp [rxInit] at hc
    | step u b hu ih =>
        intro hc
        rcases hst : u.rxState
        · by_cases hb : b = CMD_N <;> simp [onRxByte, hst, hb] at hc
        · simp [onRxByte, hst] at hc
        · by_cases hb : (b = 0 ∨ MAX_PAYLOAD < b)
          · simp [onRxByte, hst, hb] at hc
          · simp only [onRxByte, hst] at hc ⊢
            rw [if_neg hb] at hc ⊢
            unfold MAX_PAYLOAD at *
            simp at hc ⊢
            omega
        · have hprev := ih hst
          by_cases hfill : u.rxLen ≤ u.rxCount + 1
          · simp [onRxByte, hst, hfill] at hc
          · simp only [onRxByte, hst] at hc ⊢
            rw [if_neg hfill] at hc ⊢
            simp at hc ⊢
            omega
    | reset u hu ih => intro hc; simp [rxReset] at hc
  have k := key s h hrp
  unfold MAX_PAYLOAD at *
  exact ⟨k.1, by omega, by omega⟩

/-- C10 witness: a concrete reachable `READ_PAYLOAD` state (after bytes
`'n'`, type 0, length 3) satisfies the bound. -/
theorem payload_index_in_bounds_witness :
    (onRxByte (onRxByte (onRxByte rxInit 110).1 0).1 3).1.rxCount <
      (onRxByte (onRxByte (onRxByte rxInit 110).1 0).1 3).1.rxLen ∧
    (onRxByte (onRxByte (onRxByte rxInit 110).1 0).1 3).1.rxLen ≤ MAX_PAYLOAD ∧
    (onRxByte (onRxByte (onRxByte rxInit 110).1 0).1 3).1.rxCount < 200 :=
  payload_index_in_bounds _
    (RxReachable.step _ 3 (RxReachable.step _ 0 (RxReachable.step _ 110 RxReachable.init)))
    (by decide)

/-- C3 counterexample: the raw throttle byte 255 decodes to
`tps = (255 + 1) / 2 = 128`, outside 0..100. -/
theorem tps_exceeds_100 :
    (decodePayload AfrFormat.AFR_U8_div10 (List.replicate 40 255) 40 0
        ⟨0, 0, 0, 0, 0, 0, 0, false, false, 0⟩ false).1.tps = 128 ∧
    ¬((decodePayload AfrFormat.AFR_U8_div10 (List.replicate 40 255) 40 0
        ⟨0, 0, 0, 0, 0, 0, 0, false, false, 0⟩ false).1.tps ≤ 100) := by
  decide

/-- C3 (amended): for payloads of length ≥ 40 whose entries are bytes,
the decoded `tps = (raw + 1) / 2` lies in 0..128, and it lies in 0..100
exactly when the raw throttle byte is at most 200. -/
theorem tps_range (fmt : AfrFormat) (p : List Nat) (now : Nat) (ecu : EcuData) (lv : Bool)
    (hlen : 40 ≤ p.length) (hbytes : ∀ i, i < p.length → p.getD i 0 < 256) :
    0 ≤ (decodePayload fmt p p.length now ecu lv).1.tps ∧
    (decodePayload fmt p p.length now ecu lv).1.tps ≤ 128 ∧
    ((decodePayload fmt p p.length now ecu lv).1.tps ≤ 100 ↔ p.getD IDX_TPS 0 ≤ 200) := by
  have h24 : p.getD IDX_TPS 0 < 256 := hbytes IDX_TPS (by unfold IDX_TPS; omega)
  have hnl : ¬(p.length < 40) := by omega
  have htps : (decodePayload fmt p p.length now ecu lv).1.tps
      = (((p.getD IDX_TPS 0 + 1) / 2 : Nat) : Int) := by
    unfold decodePayload
    rw [if_neg hnl]
  rw [htps]
  refine ⟨?_, ?_, ?_⟩ <;> omega

/-- C3 witness: a raw throttle byte of 100 gives `tps = 50`, inside
0..100. -/
theorem tps_range_witness :
    0 ≤ (decodePayload AfrFormat.AFR_U8_div10 (List.replicate 40 100)
        (List.replicate 40 100).length 0 ⟨0, 0, 0, 0, 0, 0, 0, false, false, 0⟩ false).1.tps ∧
    (decodePayload AfrFormat.AFR_U8_div10 (List.replicate 40 100)
        (List.replicate 40 100).length 0 ⟨0, 0, 0, 0, 0, 0, 0, false, false, 0⟩ false).1.tps ≤ 128 ∧
    ((decodePayload AfrFormat.AFR_U8_div10 (List.replicate 40 100)
        (List.replicate 40 100).length 0 ⟨0, 0, 0, 0, 0, 0, 0, false, false, 0⟩ false).1.tps ≤ 100 ↔
      (List.replicate 40 100).getD IDX_TPS 0 ≤ 200) :=
  tps_range AfrFormat.AFR_U8_div10 (List.replicate 40 100) 0
    ⟨0, 0, 0, 0, 0, 0, 0, false, false, 0⟩ false (by decide) (by decide)

/-- C6: for every byte payload of length ≥ 40, `decodePayload` — a pure,
total function of the payload, the configured AFR format and the clock —
sets every snapshot field by the fixed-offset rules: temperatures are
raw − 40, rpm is the little-endian 16-bit word at offset 14 (low + 256·high),
vbat is raw/10, tps is (raw+1)/2, advance is the raw byte, warmup is bit 3
of the engine-status byte, launch is bit 0 OR bit 1 of the spark-flags
byte, afr follows the configured encoding, and the snapshot is marked
valid with the current timestamp. -/
theorem decodePayload_fields (fmt : AfrFormat) (p : List Nat) (now : Nat)
    (ecu : EcuData) (lv : Bool)
    (hlen : 40 ≤ p.length) (hbytes : ∀ i, i < p.length → p.getD i 0 < 256) :
    (decodePayload fmt p p.length now ecu lv).1.iatC = (p.getD IDX_IAT 0 : Int) - 40 ∧
    (decodePayload fmt p p.length now ecu lv).1.cltC = (p.getD IDX_CLT 0 : Int) - 40 ∧
    (decodePayload fmt p p.length now ecu lv).1.rpm
      = (p.getD IDX_RPM_L 0 : Int) + 256 * (p.getD (IDX_RPM_L + 1) 0 : Int) ∧
    (decodePayload fmt p p.length now ecu lv).1.vbat = (p.getD IDX_VBAT10 0 : ℚ) / 10 ∧
    (decodePayload fmt p p.length now ecu lv).1.tps
      = (((p.getD IDX_TPS 0 + 1) / 2 : Nat) : Int) ∧
    (decodePayload fmt p p.length now ecu lv).1.advance = (p.getD IDX_ADVANCE 0 : Int) ∧
    (decodePayload fmt p p.length now ecu lv).1.warmup
      = Nat.testBit (p.getD IDX_ENGINE 0) 3 ∧
    (decodePayload fmt p p.length now ecu lv).1.launch
      = (Nat.testBit (p.getD IDX_SPARKBF 0) 0 || Nat.testBit (p.getD IDX_SPARKBF 0) 1) ∧
    (decodePayload fmt p p.length now ecu lv).1.afr
      = (match fmt with
         | AfrFormat.AFR_U16_x100 =>
             ((p.getD AFR_INDEX 0 + 256 * p.getD (AFR_INDEX + 1) 0 : Nat) : ℚ) / 100
         | AfrFormat.AFR_U16_x10 =>
             ((p.getD AFR_INDEX 0 + 256 * p.getD (AFR_INDEX + 1) 0 : Nat) : ℚ) / 10
         | AfrFormat.AFR_U8_div10 => (p.getD AFR_INDEX 0 : ℚ) / 10) ∧
    (decodePayload fmt p p.length now ecu lv).1.lastUpdateMs = now ∧
    (decodePayload fmt p p.length now ecu lv).2 = true := by
  have hnl : ¬(p.length < 40) := by omega
  have h14 : p.getD IDX_RPM_L 0 < 256 := hbytes _ (by unfold IDX_RPM_L; omega)
  have h10 : p.getD AFR_INDEX 0 < 256 := hbytes _ (by unfold AFR_INDEX; omega)
  have hafr : decodeAfr fmt p p.length
      = (match fmt with
         | AfrFormat.AFR_U16_x100 =>
             ((p.getD AFR_INDEX 0 + 256 * p.getD (AFR_INDEX + 1) 0 : Nat) : ℚ) / 100
         | AfrFormat.AFR_U16_x10 =>
             ((p.getD AFR_INDEX 0 + 256 * p.getD (AFR_INDEX + 1) 0 : Nat) : ℚ) / 10
         | AfrFormat.AFR_U8_div10 => (p.getD AFR_INDEX 0 : ℚ) / 10) := by
    have hg1 : ¬(p.length ≤ AFR_INDEX + 1) := by unfold AFR_INDEX; omega
    have hg2 : ¬(p.length ≤ AFR_INDEX) := by unfold AFR_INDEX; omega
    cases fmt <;> simp [decodeAfr, hg1, hg2, u16le_eq p AFR_INDEX h10]
  unfold decodePayload
  rw [if_neg hnl]
  refine ⟨rfl, rfl, ?_, rfl, rfl, rfl, ?_, ?_, ?_, rfl, rfl⟩
  · show ((u16le p IDX_RPM_L : Nat) : Int) = _
    rw [u16le_eq p IDX_RPM_L h14]
    push_cast
    ring
  · exact bitSetU8_eq_testBit _ _
  · rw [show bitSetU8 (p.getD IDX_SPARKBF 0) 0 = Nat.testBit (p.getD IDX_SPARKBF 0) 0
        from bitSetU8_eq_testBit _ _,
        show bitSetU8 (p.getD IDX_SPARKBF 0) 1 = Nat.testBit (p.getD IDX_SPARKBF 0) 1
        from bitSetU8_eq_testBit _ _]
  · exact hafr

/-- Concrete 40-byte payload exercising every decoded field: RPM bytes
`[0xE8, 0x03]` at offset 14, AFR byte 150 at offset 10, engine byte 8
(bit 3 set), spark byte 2 (bit 1 set). -/
def pW : List Nat :=
  [0, 0, 8, 0, 0, 0, 60, 100, 0, 121, 150, 0, 0, 0, 232, 3, 0, 0, 0, 0,
   0, 0, 0, 12, 80, 0, 0, 0, 0, 0, 0, 2, 0, 0, 0, 0, 0, 0, 0, 0]

/-- C6 witness: on `pW` the decode yields rpm = 1000 (bytes `[0xE8,0x03]`),
afr = 15.0 (8-bit tenths byte 150), warmup and launch true. -/
theorem decodePayload_fields_witness :
    (decodePayload AfrFormat.AFR_U8_div10 pW pW.length 5
        ⟨0, 0, 0, 0, 0, 0, 0, false, false, 0⟩ false).1.rpm = 1000 ∧
    (decodePayload AfrFormat.AFR_U8_div10 pW pW.length 5
        ⟨0, 0, 0, 0, 0, 0, 0, false, false, 0⟩ false).1.afr = 15 ∧
    (decodePayload AfrFormat.AFR_U8_div10 pW pW.length 5
        ⟨0, 0, 0, 0, 0, 0, 0, false, false, 0⟩ false).1.warmup = true ∧
    (decodePayload AfrFormat.AFR_U8_div10 pW pW.length 5
        ⟨0, 0, 0, 0, 0, 0, 0, false, false, 0⟩ false).1.launch = true := by
  obtain ⟨-, -, hrpm, -, -, -, hwm, hln, hafr, -, -⟩ :=
    decodePayload_fields AfrFormat.AFR_U8_div10 pW 5
      ⟨0, 0, 0, 0, 0, 0, 0, false, false, 0⟩ false (by decide) (by decide)
  refine ⟨?_, ?_, ?_, ?_⟩
  · rw [hrpm]; decide
  · rw [hafr]; norm_num [pW, AFR_INDEX]
  · rw [hwm]; decide
  · rw [hln]; decide

/-- C2 counterexample: raw bytes that never form a frame keep the link
"valid".  A full 40-byte frame is decoded at t = 0 (snapshot timestamp 0),
a single stray byte arrives at t = 10000, and the evaluation at t = 10100
leaves `linkValid` true and `stale` false even though no frame was decoded
for 10100 ms ≫ 700 ms: staleness is measured from the last received byte
(`lastRxMs`), not from the last decoded frame. -/
theorem staleness_ignores_frameless_bytes :
    (feedByte AfrFormat.AFR_U8_div10
        (feedBytes AfrFormat.AFR_U8_div10 dashInit (CMD_N :: 0 :: 40 :: List.replicate 40 0) 0)
        7 10000).ecu.lastUpdateMs = 0 ∧
    LINK_STALE_MS < 10100 - (feedByte AfrFormat.AFR_U8_div10
        (feedBytes AfrFormat.AFR_U8_div10 dashInit (CMD_N :: 0 :: 40 :: List.replicate 40 0) 0)
        7 10000).ecu.lastUpdateMs ∧
    (updateLink (feedByte AfrFormat.AFR_U8_div10
        (feedBytes AfrFormat.AFR_U8_div10 dashInit (CMD_N :: 0 :: 40 :: List.replicate 40 0) 0)
        7 10000) 10100).1.linkValid = true ∧
    (updateLink (feedByte AfrFormat.AFR_U8_div10
        (feedBytes AfrFormat.AFR_U8_div10 dashInit (CMD_N :: 0 :: 40 :: List.replicate 40 0) 0)
        7 10000) 10100).2 = false := by
  decide

/-- C2 (amended): staleness is keyed to the last received raw byte.  If no
byte at all has arrived within LINK_STALE_MS (700 ms) — in particular if
no frame has — the next evaluation marks the snapshot invalid
(`linkValid := false`) and surfaces the link as stale. -/
theorem link_stale_without_bytes (s : DashState) (now : Nat)
    (hle : s.lastRxMs ≤ now) (hnow : now < U32)
    (hstale : LINK_STALE_MS < now - s.lastRxMs) :
    (updateLink s now).2 = true ∧ (updateLink s now).1.linkValid = false := by
  have hsub : u32sub now s.lastRxMs = now - s.lastRxMs :=
    u32sub_eq_sub now s.lastRxMs hle hnow
  have hcond : LINK_STALE_MS < u32sub now s.lastRxMs := by rw [hsub]; exact hstale
  unfold updateLink
  simp [hcond]

/-- C2 amended-claim witness: with the last byte 900 ms ago the link is
marked down. -/
theorem link_stale_without_bytes_witness :
    (updateLink { dashInit with linkValid := true, lastRxMs := 100 } 1000).2 = true ∧
    (updateLink { dashInit with linkValid := true, lastRxMs := 100 } 1000).1.linkValid = false :=
  link_stale_without_bytes { dashInit with linkValid := true, lastRxMs := 100 } 1000
    (by decide) (by decide) (by decide)

/-- C7: after every evaluation the shift light is active exactly when
`shiftEnabled AND linkValid AND rpm ≥ shiftThresholdRpm`; and with
threshold 6500, shift enabled and the link valid, the rpm sequence
7000 then 6000 produces exactly one enter-alert signal followed by exactly
one exit-alert signal. -/
theorem shift_activation_and_scenario (en lv : Bool) (rpm thr : Int) (now : Nat)
    (s : ShiftState) :
    (shiftStep en lv rpm thr now s).1.shiftActive = (en && lv && decide (thr ≤ rpm)) ∧
    (shiftStep true true 7000 6500 1000 ⟨false, 0, false⟩).2 = [ShiftEvent.enterAlert] ∧
    (shiftStep true true 6000 6500 1100
        (shiftStep true true 7000 6500 1000 ⟨false, 0, false⟩).1).2
      = [ShiftEvent.exitAlert] := by
  refine ⟨?_, by decide, by decide⟩
  obtain ⟨sa, t0, bo⟩ := s
  rcases hb : (en && lv && decide (thr ≤ rpm)) <;>
    cases sa <;>
      simp [shiftStep, hb] <;> split <;> simp

/-- Leaving `setUiPaused` never changes `portalMode`. -/
lemma setUiPaused_portalMode (pause : Bool) (s : PortalState) :
    (setUiPaused pause s).1.portalMode = s.portalMode := by
  unfold setUiPaused
  split <;> rfl

/-- Requesting the mode already active returns immediately: no state
change, no actions. -/
lemma setPortalMode_self (onMode : Bool) (now : Nat) (s : PortalState)
    (h : s.portalMode = onMode) : setPortalMode onMode now s = (s, []) := by
  unfold setPortalMode
  rw [if_pos h]

/-- After any `setPortalMode` call the mode equals the requested one. -/
lemma setPortalMode_mode (onMode : Bool) (now : Nat) (s : PortalState) :
    (setPortalMode onMode now s).1.portalMode = onMode := by
  unfold setPortalMode
  split
  · rename_i h; exact h
  · split
    · rw [setUiPaused_portalMode]
      split <;> rfl
    · rw [setUiPaused_portalMode]

/-- C8: mode transitions are idempotent.  Requesting the mode already
active performs no transition actions (no serial stop/start, no recording
stop, no screen change) and leaves the state untouched; hence two
consecutive Portal requests from any state perform the transition actions
at most once — the second request emits none. -/
theorem modeChange_idempotent (onMode : Bool) (now now2 now3 : Nat)
    (s s2 : PortalState) (h : s.portalMode = onMode) :
    setPortalMode onMode now s = (s, []) ∧
    (setPortalMode true now3 (setPortalMode true now2 s2).1).2 = [] := by
  refine ⟨setPortalMode_self onMode now s h, ?_⟩
  rw [setPortalMode_self true now3 (setPortalMode true now2 s2).1
    (setPortalMode_mode true now2 s2)]

/-- C8 witness: a repeated Portal request (already in portal mode, and the
back-to-back double request) performs no actions. -/
theorem modeChange_idempotent_witness :
    setPortalMode true 0 ⟨true, false, true, rxInit, false, 0⟩ =
      ((⟨true, false, true, rxInit, false, 0⟩ : PortalState), []) ∧
    (setPortalMode true 5 (setPortalMode true 3 ⟨false, true, false, rxInit, true, 9⟩).1).2 = [] :=
  modeChange_idempotent true 0 3 5 ⟨true, false, true, rxInit, false, 0⟩
    ⟨false, true, false, rxInit, true, 9⟩ rfl

/-- C1 counterexample: in a successful `startRecording` the CSV header is
written to the freshly opened log file (trace position 1) before the
incremented session counter is persisted (trace position 2): the persist
does not precede the first write. -/
theorem startRecording_header_before_persist :
    (startRecording true ⟨true, true, false, false, 7, 5⟩).2.1 = none ∧
    (startRecording true ⟨true, true, false, false, 7, 5⟩).2.2 =
      [RecOp.openLog 7, RecOp.writeHeader, RecOp.persistIndex 8] ∧
    ¬persistPrecedesWrites (startRecording true ⟨true, true, false, false, 7, 5⟩).2.2 := by
  refine ⟨by decide, by decide, ?_⟩
  intro hp
  obtain ⟨i, hi, hpers⟩ := hp 1 (by decide) (by decide)
  interval_cases i
  exact absurd hpers (by decide)

/-- C1 (amended): on success `startRecording` opens the log file named by
the current counter, writes the CSV header first, and only then increments
and persists the session counter — still before returning, hence before
any data row is appended. -/
theorem startRecording_persist_after_header (openOk : Bool) (s : RecState)
    (h : (startRecording openOk s).2.1 = none) :
    (startRecording openOk s).2.2 =
      [RecOp.openLog s.logIndex, RecOp.writeHeader, RecOp.persistIndex (s.logIndex + 1)] ∧
    (startRecording openOk s).1.logIndex = s.logIndex + 1 ∧
    (startRecording openOk s).1.recording = true := by
  obtain ⟨le, sd, rec, pb, idx, llm⟩ := s
  cases le <;> cases sd <;> cases rec <;> cases pb <;> cases openOk <;>
    simp_all [startRecording]

/-- C1 amended-claim witness: a concrete successful start produces the
open-header-persist trace and the incremented counter. -/
theorem startRecording_persist_after_header_witness :
    (startRecording true ⟨true, true, false, false, 3, 1⟩).2.2 =
      [RecOp.openLog 3, RecOp.writeHeader, RecOp.persistIndex 4] ∧
    (startRecording true ⟨true, true, false, false, 3, 1⟩).1.logIndex = 4 ∧
    (startRecording true ⟨true, true, false, false, 3, 1⟩).1.recording = true :=
  startRecording_persist_after_header true ⟨true, true, false, false, 3, 1⟩ (by decide)

/-- C9 counterexample: with logging enabled, SD present, not recording and
the portal idle, `startRecording` can still fail — when `SD.open` does not
return a usable file handle it reports a fifth reason ("Failed to open log
file"), so failure is not confined to the four listed conditions. -/
theorem startRecording_fifth_reason :
    (⟨true, true, false, false, 1, 0⟩ : RecState).logEnabled = true ∧
    (⟨true, true, false, false, 1, 0⟩ : RecState).sdOk = true ∧
    (⟨true, true, false, false, 1, 0⟩ : RecState).recording = false ∧
    (⟨true, true, false, false, 1, 0⟩ : RecState).portalBusy = false ∧
    (startRecording false ⟨true, true, false, false, 1, 0⟩).2.1
      = some RecReason.openFailed := by
  decide

/-- C9 (amended): `startRecording` succeeds (and begins recording) exactly
when logging is enabled, storage is available, no recording is active, the
portal is idle AND the log file opens; otherwise it fails with one of the
four listed reasons or, when only the open fails, with the open-failure
reason. -/
theorem startRecording_result_characterization (openOk : Bool) (s : RecState) :
    ((startRecording openOk s).2.1 = none ↔
      (s.logEnabled = true ∧ s.sdOk = true ∧ s.recording = false ∧
       s.portalBusy = false ∧ openOk = true)) ∧
    ((startRecording openOk s).1.recording = true ↔
      (s.recording = true ∨
       (s.logEnabled = true ∧ s.sdOk = true ∧ s.recording = false ∧
        s.portalBusy = false ∧ openOk = true))) := by
  obtain ⟨le, sd, rec, pb, idx, llm⟩ := s
  cases le <;> cases sd <;> cases rec <;> cases pb <;> cases openOk <;>
    simp [startRecording]

end Speeduino
